import Mathlib

/-
Verification of aioeffect (AsyncIO integration for the Effect library).

Shallow embedding of src/aioeffect/__init__.py:
  - `future_to_box` / its inner `done_cb` (the Box Adapter),
  - `make_asyncio_dispatcher` (the dispatcher table),
  - `performer` / its inner `asyncio_wrapper` (the Performer Decorator),
  - `perform_delay` (the Delay Performer),
  - `perform` (the Top-Level Perform Entry Point).

External collaborators (the `effect` dispatch engine, asyncio futures and
timers) are modelled explicitly; definitions taken from the spec rather than
from source under src/ carry a doc comment starting `Modelled from the spec:`.
Scheduler time is discrete (Nat time units), matching the ticked-clock test
style of the repository.
-/

set_option autoImplicit false

namespace Aioeffect

/-! ## Python value model -/

/-- Python values that flow through boxes and futures in this library. -/
inductive PyVal where
  | none
  | str (s : String)
  | int (n : Int)
  deriving DecidableEq, Repr

/-- A Python exception instance: its class name and its args payload.
The payload is carried whole, never flattened to a message string. -/
structure PyExc where
  cls : String
  payload : PyVal
  deriving DecidableEq, Repr

/-- A `sys.exc_info()`-style triple: exception type, exception instance,
traceback (opaque, identified by an optional id). -/
structure ExcInfo where
  ty : String
  inst : PyExc
  tb : Option Nat
  deriving DecidableEq, Repr

/-- The triple `sys.exc_info()` yields after catching `e`: the type is the
class of the instance, the instance is carried whole, the traceback is a
fresh opaque object (modelled as `none`). -/
def excInfoOf (e : PyExc) : ExcInfo := ⟨e.cls, e, Option.none⟩

/-! ## asyncio.Future model

An asyncio Future is a single-assignment cell: `set_result` / `set_exception`
succeed only while it is pending and raise `InvalidStateError` otherwise;
awaiting a completed future yields its value or re-raises the stored
exception instance. -/

/-- The state of an asyncio Future. -/
inductive FutureState where
  | pending
  | resolved (v : PyVal)
  | rejected (e : PyExc)
  deriving DecidableEq, Repr

/-- Outcome of a `set_result` / `set_exception` call: the new state, or the
`InvalidStateError` asyncio raises when the future is already completed. -/
inductive SetOutcome where
  | ok (s : FutureState)
  | invalidState
  deriving DecidableEq, Repr

/-- `Future.set_result(v)`. -/
def set_result (s : FutureState) (v : PyVal) : SetOutcome :=
  match s with
  | .pending => .ok (.resolved v)
  | _ => .invalidState

/-- `Future.set_exception(e)`. -/
def set_exception (s : FutureState) (e : PyExc) : SetOutcome :=
  match s with
  | .pending => .ok (.rejected e)
  | _ => .invalidState

/-- Awaiting a future: nothing yet while pending; the value on success;
re-raises the stored exception instance on failure. -/
def await_result : FutureState → Option (Except PyExc PyVal)
  | .pending => Option.none
  | .resolved v => some (.ok v)
  | .rejected e => some (.error e)

/-! ## Top-level `perform` (src/aioeffect/__init__.py lines 80-88)

    def perform(dispatcher, effect):
        fut = Future()
        eff = effect.on(success=fut.set_result,
                        error=lambda e: fut.set_exception(e[1]))
        base_perform(dispatcher, eff)
        return fut

The success continuation attached to the effect is `fut.set_result`; the
error continuation receives an exc-info triple `e` and calls
`fut.set_exception(e[1])`, i.e. rejects with the exception instance. -/

/-- The success continuation `perform` attaches: `fut.set_result`. -/
def perform_success_cont (v : PyVal) (s : FutureState) : SetOutcome :=
  set_result s v

/-- The error continuation `perform` attaches:
`lambda e: fut.set_exception(e[1])` — it takes component 1 of the triple,
the exception instance. -/
def perform_error_cont (e : ExcInfo) (s : FutureState) : SetOutcome :=
  set_exception s e.inst

/-- What a performer does with the completion box during the synchronous
dispatch pass: store it for later (like the test dispatcher whose intents
append the box to a list), or invoke `succeed` / `fail` right away. -/
inductive PerformerAct where
  | defer
  | succeedNow (v : PyVal)
  | failNow (e : ExcInfo)
  deriving DecidableEq, Repr

/-- Modelled from the spec: the synchronous dispatch engine `effect.perform`
(external library) invokes the dispatcher-selected performer exactly once
with a box whose `succeed` / `fail` run the effect's attached continuations.
Here the continuations are the pair `perform` attached, so the box acts on
the future state. -/
def runBoxAct (s : FutureState) : PerformerAct → SetOutcome
  | .defer => .ok s
  | .succeedNow v => perform_success_cont v s
  | .failNow e => perform_error_cont e s

/-- Result of a `perform` call: the state of the returned future once the
synchronous dispatch pass finishes, and the number of times the dispatch
engine was invoked. -/
structure PerformResult where
  fut : SetOutcome
  engineCalls : Nat
  deriving DecidableEq, Repr

/-- `perform dispatcher intent`: construct a fresh pending future, attach
the two continuations, invoke the dispatch engine once on the effect, and
return the future. The dispatcher maps the intent to its performer's
behaviour on the box. -/
def perform {I : Type} (dispatcher : I → PerformerAct) (intent : I) :
    PerformResult :=
  ⟨runBoxAct .pending (dispatcher intent), 1⟩

/-! ## Box Adapter: `future_to_box` (src/aioeffect/__init__.py lines 22-33)

    def future_to_box(fut, box):
        def done_cb(fut):
            try:
                box.succeed(fut.result())
            except:
                box.fail(sys.exc_info())
        fut.add_done_callback(done_cb)
        box.asyncio_future = fut

The box here is an arbitrary effect-library Completion Box whose `succeed`
and `fail` callbacks may themselves raise. -/

/-- The observable behaviour of an arbitrary Completion Box: each callback
either returns normally (`none`) or raises the given exception (`some e`). -/
structure UserBox where
  succeedRaises : PyVal → Option PyExc
  failRaises : ExcInfo → Option PyExc

/-- One recorded invocation of a box callback by the binding. -/
inductive BoxCall where
  | succeedCall (v : PyVal)
  | failCall (e : ExcInfo)
  deriving DecidableEq, Repr

/-- What a single run of `done_cb` does: the box callbacks it invokes, in
order, and the exception (if any) that escapes `done_cb` into the event
loop's callback-dispatch machinery. -/
structure DoneCbRun where
  calls : List BoxCall
  escaped : Option PyExc
  deriving DecidableEq, Repr

/-- `done_cb` on a completed future. `fut.result()` yields `v` on a resolved
future and raises the stored exception on a rejected one; the bare `except`
catches both that exception and any exception raised by `box.succeed`
itself, and calls `box.fail(sys.exc_info())`; an exception raised by
`box.fail` is not caught. -/
def done_cb (box : UserBox) (outcome : Except PyExc PyVal) : DoneCbRun :=
  match outcome with
  | .ok v =>
    match box.succeedRaises v with
    | Option.none => ⟨[.succeedCall v], Option.none⟩
    | some exc =>
      ⟨[.succeedCall v, .failCall (excInfoOf exc)],
        box.failRaises (excInfoOf exc)⟩
  | .error e =>
    ⟨[.failCall (excInfoOf e)], box.failRaises (excInfoOf e)⟩

/-- The box-callback invocations the `future_to_box` binding has made, as a
function of the bound future's state. Modelled from the spec:
`fut.add_done_callback(done_cb)` (asyncio, external) runs `done_cb` exactly
once, when and only when the future completes; while the future is pending
no callback has run. -/
def future_to_box_calls (box : UserBox) : FutureState → List BoxCall
  | .pending => []
  | .resolved v => (done_cb box (.ok v)).calls
  | .rejected e => (done_cb box (.error e)).calls

/-- Count of `succeed` invocations in a call trace. -/
def countSucceed (calls : List BoxCall) : Nat :=
  calls.countP (fun c => match c with | .succeedCall _ => true | _ => false)

/-- Count of `fail` invocations in a call trace. -/
def countFail (calls : List BoxCall) : Nat :=
  calls.countP (fun c => match c with | .failCall _ => true | _ => false)

/-! ## Parallel Performer (consumed via `make_asyncio_dispatcher`)

`perform_parallel_async` lives in the external `effect.async` module; the
spec treats it as a collaborator whose contract the dispatcher table
exposes. We model each sub-effect by its wall-clock completion time (in
scheduler time units) and its outcome. -/

/-- One sub-effect run: when it completes on the wall clock and with what
outcome. -/
structure SubRun where
  doneAt : Nat
  outcome : Except PyExc PyVal
  deriving Repr

/-- The effect library's `FirstError` aggregate error: the original
sub-error together with the index of the failed effect. -/
structure FirstError where
  err : PyExc
  idx : Nat
  deriving DecidableEq, Repr

/-- The failed slots of a run, starting the index count at `i`:
(submission index, completion time, error). -/
def failureSlotsFrom (i : Nat) : List SubRun → List (Nat × Nat × PyExc)
  | [] => []
  | s :: rest =>
    match s.outcome with
    | .error e => (i, s.doneAt, e) :: failureSlotsFrom (i + 1) rest
    | .ok _ => failureSlotsFrom (i + 1) rest

/-- The failed slots of a run: (submission index, completion time, error). -/
def failureSlots (subs : List SubRun) : List (Nat × Nat × PyExc) :=
  failureSlotsFrom 0 subs

/-- Keep whichever of two failure slots completed strictly earlier on the
wall clock (ties broken in favour of the incumbent, i.e. submission order,
matching deterministic callback delivery on a single-threaded loop). -/
def pickEarlier (acc : Option (Nat × Nat × PyExc)) (x : Nat × Nat × PyExc) :
    Option (Nat × Nat × PyExc) :=
  match acc with
  | Option.none => some x
  | some a => if x.2.1 < a.2.1 then some x else some a

/-- The first failure to complete in wall-clock time (earliest `doneAt`). -/
def firstFailure (subs : List SubRun) : Option (Nat × Nat × PyExc) :=
  (failureSlots subs).foldl pickEarlier Option.none

/-- The success value of a slot (its slot value when it succeeded). -/
def okValue (s : SubRun) : Option PyVal :=
  match s.outcome with
  | .ok v => some v
  | .error _ => Option.none

/-- Modelled from the spec: `effect.async.perform_parallel_async` (external
library). Runs all sub-effects concurrently, collecting each outcome into
its submission-index slot. If every slot succeeds the aggregate resolves,
once the last slot has completed, with the ordered list of values in
submission order; if any slot fails the aggregate rejects, at the moment
the first failure completes on the wall clock, with a `FirstError` wrapping
that sub-error, without waiting for the remaining in-flight slots. The
result is the pair (completion time of the aggregate, aggregate outcome). -/
def perform_parallel_async (subs : List SubRun) :
    Nat × Except FirstError (List PyVal) :=
  match firstFailure subs with
  | some f => (f.2.1, .error ⟨f.2.2, f.1⟩)
  | Option.none =>
    ((subs.map SubRun.doneAt).foldl max 0, .ok (subs.filterMap okValue))

/-! ## Delay Performer: `perform_delay` (src/aioeffect/__init__.py lines 72-77)

    @performer
    def perform_delay(dispatcher, delay):
        return sleep(delay.delay)

The decorator schedules `sleep(delay.delay)` as a task and bridges its
future to the box. -/

/-- The effect library's `Delay` intent, carrying a duration in scheduler
time units. -/
structure Delay where
  delay : Nat
  deriving DecidableEq, Repr

/-- A task outcome placed on the discrete scheduler clock: the time at
which it completes and what it completes with. -/
structure TimedOutcome where
  doneAt : Nat
  outcome : Except PyExc PyVal
  deriving Repr

/-- Modelled from the spec: `asyncio.sleep(d)` (external scheduler timer)
— started at time `start`, it suspends for `d` scheduler time units and
completes with `None` at `start + d`. -/
def sleep (start d : Nat) : TimedOutcome :=
  ⟨start + d, .ok PyVal.none⟩

/-- The task `perform_delay` schedules for a `Delay` intent at time
`start`: the scheduler sleep for the intent's duration. -/
def perform_delay (start : Nat) (intent : Delay) : TimedOutcome :=
  sleep start intent.delay

/-- Polling a timed task at time `t`: has it resolved yet? -/
def doneBy (r : TimedOutcome) (t : Nat) : Bool :=
  decide (r.doneAt ≤ t)

/-! ## Performer Decorator: `performer` (src/aioeffect/__init__.py lines 47-69)

    @wraps(f)
    def asyncio_wrapper(*args, **kwargs):
        *pass_args, box = args
        task = get_event_loop().create_task(f(*pass_args, **kwargs))
        future_to_box(task, box)
    return asyncio_wrapper
-/

/-- Identity metadata of a Python callable: `__name__`, `__doc__`, and the
custom attributes attached to it. -/
structure FuncMeta where
  name : String
  doc : Option String
  attrs : List (String × PyVal)
  deriving DecidableEq, Repr

/-- The wrapper function's own generic identity: a plain inner function
named `asyncio_wrapper` with no docstring and no custom attributes. -/
def asyncio_wrapper_meta : FuncMeta :=
  ⟨"asyncio_wrapper", Option.none, []⟩

/-- Modelled from the spec: `effect._utils.wraps` (external library), a
metadata-copying decorator that preserves the wrapped callable's name,
docstring and attached attributes when the callable exposes them
(`some orig`), and silently leaves the wrapper's own generic identity in
place when it does not (`Option.none`, e.g. a partially-applied function). -/
def wrapsMeta (orig : Option FuncMeta) (wrapper : FuncMeta) : FuncMeta :=
  match orig with
  | some m => ⟨m.name, m.doc, wrapper.attrs ++ m.attrs⟩
  | Option.none => wrapper

/-- The metadata of the callable `performer f` returns: the wrapper's
identity after `@wraps(f)`. -/
def performer_meta (orig : Option FuncMeta) : FuncMeta :=
  wrapsMeta orig asyncio_wrapper_meta

/-- The call `asyncio_wrapper` makes: the wrapped function `f` receives
these positional arguments and these keyword arguments, and the box is the
one the task's future is bound to via `future_to_box`. -/
structure WrapperInvocation (α : Type) where
  fArgs : List α
  fKwargs : List (String × α)
  boxArg : α
  deriving Repr

/-- `asyncio_wrapper(*args, **kwargs)`: unpack `*pass_args, box = args`
(raises, i.e. `none`, when `args` is empty), call `f(*pass_args, **kwargs)`
with the keyword arguments passed through unchanged, and bind the resulting
task to `box`. -/
def asyncio_wrapper {α : Type} (args : List α) (kwargs : List (String × α)) :
    Option (WrapperInvocation α) :=
  match args.getLast? with
  | Option.none => Option.none
  | some box => some ⟨args.dropLast, kwargs, box⟩

/-! ## Dispatcher table: `make_asyncio_dispatcher` (src/aioeffect/__init__.py
lines 36-44)

    def make_asyncio_dispatcher(loop=None):
        return TypeDispatcher({
            ParallelEffects: perform_parallel_async,
            Delay: perform_delay,
        })

The `loop` parameter is never used in the body. -/

/-- The intent types the built-in dispatcher table keys on. -/
inductive IntentType where
  | parallelEffects
  | delayIntent
  | other (cls : String)
  deriving DecidableEq, Repr

/-- The built-in performers the dispatcher table maps to. -/
inductive BuiltinPerformer where
  | parallelAsyncPerformer
  | delayPerformer
  deriving DecidableEq, Repr

set_option linter.unusedVariables false in
/-- `make_asyncio_dispatcher(loop=None)`: a type dispatcher whose table
maps `ParallelEffects` to `perform_parallel_async` and `Delay` to
`perform_delay`. The body never reads `loop`. -/
def make_asyncio_dispatcher {L : Type} (loop : Option L := Option.none) :
    List (IntentType × BuiltinPerformer) :=
  [(.parallelEffects, .parallelAsyncPerformer),
   (.delayIntent, .delayPerformer)]

/-- `TypeDispatcher` lookup: find the performer registered for an intent
type. -/
def typeDispatcherLookup (table : List (IntentType × BuiltinPerformer))
    (ty : IntentType) : Option BuiltinPerformer :=
  (table.find? (fun p => p.1 == ty)).map Prod.snd

/-! ## Theorems -/

/-- C1: `perform(dispatcher, effect)` constructs a new scheduler future,
invokes the synchronous dispatch engine exactly once, and returns that
future immediately: with a performer that defers (stores the box), the
returned future is still pending at return; the attached success
continuation resolves the pending future with the given value, so a
performer that later invokes the box's `succeed v` (e.g. `v = "foo"`)
makes the returned future resolve to exactly `v`. -/
theorem perform_bridges_box_to_future {I : Type}
    (dispatcher : I → PerformerAct) (intent : I) :
    (perform dispatcher intent).engineCalls = 1 ∧
    (dispatcher intent = PerformerAct.defer →
      (perform dispatcher intent).fut = SetOutcome.ok FutureState.pending) ∧
    (∀ v, dispatcher intent = PerformerAct.succeedNow v →
      (perform dispatcher intent).fut =
        SetOutcome.ok (FutureState.resolved v)) ∧
    (∀ v, perform_success_cont v FutureState.pending =
      SetOutcome.ok (FutureState.resolved v)) := by
  refine ⟨rfl, ?_, ?_, fun v => rfl⟩
  · intro h
    simp [perform, runBoxAct, h]
  · intro v h
    simp [perform, runBoxAct, h, perform_success_cont, set_result]

/-- C1 witness: with the repository test's deferring dispatcher the future
comes back pending, and `succeed "foo"` on the pending future resolves it
to exactly `"foo"`. -/
theorem perform_bridges_box_to_future_witness :
    (perform (fun _ : Unit => PerformerAct.defer) ()).fut =
      SetOutcome.ok FutureState.pending ∧
    perform_success_cont (PyVal.str "foo") FutureState.pending =
      SetOutcome.ok (FutureState.resolved (PyVal.str "foo")) :=
  ⟨(perform_bridges_box_to_future (fun _ : Unit => PerformerAct.defer) ()).2.1
      rfl,
   (perform_bridges_box_to_future (fun _ : Unit => PerformerAct.defer) ()).2.2.2
      (PyVal.str "foo")⟩

/-- C2: when the effect's ultimate result is a failure carried as an
(exception-type, exception-instance, traceback) triple, the future rejects
with the exception instance of that triple, and awaiting it re-raises
exactly that original instance, its class and payload preserved (never a
string). -/
theorem perform_failure_reraises_instance {I : Type}
    (dispatcher : I → PerformerAct) (intent : I) (e : ExcInfo)
    (h : dispatcher intent = PerformerAct.failNow e) :
    (perform dispatcher intent).fut =
      SetOutcome.ok (FutureState.rejected e.inst) ∧
    await_result (FutureState.rejected e.inst) =
      some (Except.error e.inst) := by
  refine ⟨?_, rfl⟩
  simp [perform, runBoxAct, h, perform_error_cont, set_exception]

/-- C2 witness: failing the box with the test triple
`(ValueError, ValueError("oh dear"), None)` rejects the future with that
very instance, and awaiting re-raises it. -/
theorem perform_failure_reraises_instance_witness :
    (perform (fun _ : Unit => PerformerAct.failNow
        ⟨"ValueError", ⟨"ValueError", PyVal.str "oh dear"⟩, Option.none⟩)
        ()).fut =
      SetOutcome.ok
        (FutureState.rejected ⟨"ValueError", PyVal.str "oh dear"⟩) ∧
    await_result (FutureState.rejected ⟨"ValueError", PyVal.str "oh dear"⟩) =
      some (Except.error ⟨"ValueError", PyVal.str "oh dear"⟩) :=
  perform_failure_reraises_instance
    (fun _ : Unit => PerformerAct.failNow
      ⟨"ValueError", ⟨"ValueError", PyVal.str "oh dear"⟩, Option.none⟩)
    () ⟨"ValueError", ⟨"ValueError", PyVal.str "oh dear"⟩, Option.none⟩ rfl

/-- C3 counterexample: the claim that `succeed` and `fail` combined are
invoked at most once fails — for a box whose `succeed` itself raises,
bound to a future that resolves, the binding invokes `succeed` and then
`fail`, two combined invocations. -/
theorem future_to_box_single_call_counterexample :
    ¬ (∀ (box : UserBox) (s : FutureState),
        (future_to_box_calls box s).length ≤ 1) := by
  intro h
  have h2 := h
    ⟨fun _ => some ⟨"RuntimeError", PyVal.str "boom"⟩, fun _ => Option.none⟩
    (FutureState.resolved (PyVal.str "foo"))
  simp [future_to_box_calls, done_cb] at h2

/-- C3 (amended): for every box bound by `future_to_box` and every state of
the bound future, neither callback is invoked before the future completes,
each of `succeed` and `fail` is invoked at most once, and their combined
count exceeds one only in the single case where the future resolved and
`succeed` itself raised (the capture step that turns that exception into
the box's own failure). -/
theorem future_to_box_calls_bounded (box : UserBox) (s : FutureState) :
    (s = FutureState.pending → future_to_box_calls box s = []) ∧
    countSucceed (future_to_box_calls box s) ≤ 1 ∧
    countFail (future_to_box_calls box s) ≤ 1 ∧
    (1 < (future_to_box_calls box s).length →
      ∃ v exc, s = FutureState.resolved v ∧
        box.succeedRaises v = some exc) := by
  cases s with
  | pending =>
    simp [future_to_box_calls, countSucceed, countFail]
  | resolved v =>
    cases hsr : box.succeedRaises v with
    | none =>
      simp [future_to_box_calls, done_cb, hsr, countSucceed, countFail]
    | some exc =>
      refine ⟨by simp, ?_, ?_, fun _ => ⟨v, exc, rfl, hsr⟩⟩ <;>
        simp [future_to_box_calls, done_cb, hsr, countSucceed, countFail]
  | rejected e =>
    simp [future_to_box_calls, done_cb, countSucceed, countFail]

/-- C3 amended witness: for a well-behaved box and a resolved future the
binding makes no call before completion and exactly one `succeed` call. -/
theorem future_to_box_calls_bounded_witness :
    future_to_box_calls ⟨fun _ => Option.none, fun _ => Option.none⟩
        FutureState.pending = [] ∧
    countSucceed (future_to_box_calls
        ⟨fun _ => Option.none, fun _ => Option.none⟩
        (FutureState.resolved (PyVal.str "foo"))) ≤ 1 :=
  ⟨(future_to_box_calls_bounded
      ⟨fun _ => Option.none, fun _ => Option.none⟩
      FutureState.pending).1 rfl,
   (future_to_box_calls_bounded
      ⟨fun _ => Option.none, fun _ => Option.none⟩
      (FutureState.resolved (PyVal.str "foo"))).2.1⟩

/-- C4 counterexample: the claim that any exception raised inside `succeed`
or `fail` is captured by the binding fails for `fail` — when the future
completes with an error and the box's `fail` itself raises, the exception
escapes the completion callback instead of being captured. -/
theorem future_to_box_capture_counterexample :
    ¬ (∀ (box : UserBox) (outcome : Except PyExc PyVal),
        (done_cb box outcome).escaped = Option.none) := by
  intro h
  have h2 := h
    ⟨fun _ => Option.none, fun _ => some ⟨"RuntimeError", PyVal.str "boom"⟩⟩
    (Except.error ⟨"ValueError", PyVal.str "oh dear"⟩)
  simp [done_cb] at h2

/-- C4 (amended): an exception raised inside `succeed` is captured by the
binding and turned into the box's own failure — `fail` is invoked with the
full exc-info of that exception; when the future completes with an error
`e`, `fail` is invoked with the full (type, instance, traceback) payload of
`e`; an exception raised inside `fail` itself is not captured and escapes
the completion callback. -/
theorem future_to_box_error_paths (box : UserBox) (v : PyVal)
    (e exc : PyExc) :
    (box.succeedRaises v = some exc →
      done_cb box (Except.ok v) =
        ⟨[BoxCall.succeedCall v, BoxCall.failCall (excInfoOf exc)],
          box.failRaises (excInfoOf exc)⟩) ∧
    (done_cb box (Except.error e)).calls =
      [BoxCall.failCall ⟨e.cls, e, Option.none⟩] ∧
    (done_cb box (Except.error e)).escaped = box.failRaises (excInfoOf e) := by
  refine ⟨fun hsr => ?_, rfl, rfl⟩
  simp [done_cb, hsr]

/-- C4 amended witness: a box whose `succeed` raises `RuntimeError("boom")`
on a future resolved with `"foo"` gets `succeed` then `fail` with the full
exc-info of the raised exception, and nothing escapes. -/
theorem future_to_box_error_paths_witness :
    done_cb
        ⟨fun _ => some ⟨"RuntimeError", PyVal.str "boom"⟩,
          fun _ => Option.none⟩
        (Except.ok (PyVal.str "foo")) =
      ⟨[BoxCall.succeedCall (PyVal.str "foo"),
        BoxCall.failCall (excInfoOf ⟨"RuntimeError", PyVal.str "boom"⟩)],
        Option.none⟩ :=
  (future_to_box_error_paths
    ⟨fun _ => some ⟨"RuntimeError", PyVal.str "boom"⟩, fun _ => Option.none⟩
    (PyVal.str "foo") ⟨"ValueError", PyVal.str "oh dear"⟩
    ⟨"RuntimeError", PyVal.str "boom"⟩).1 rfl

/-- Helper: an all-successful batch contributes no failure slots. -/
lemma failureSlotsFrom_all_ok (ts : List Nat) :
    ∀ (i : Nat) (vs : List PyVal),
      failureSlotsFrom i
        (List.zipWith (fun t v => SubRun.mk t (Except.ok v)) ts vs) = [] := by
  induction ts with
  | nil =>
    intro i vs
    simp [failureSlotsFrom]
  | cons t ts ih =>
    intro i vs
    cases vs with
    | nil => simp [failureSlotsFrom]
    | cons v vs => simpa [failureSlotsFrom] using ih (i + 1) vs

/-- Helper: collecting the success values of an all-successful batch gives
back exactly the submitted values, in submission order. -/
lemma filterMap_okValue_zip (ts : List Nat) :
    ∀ vs : List PyVal, ts.length = vs.length →
      List.filterMap okValue
        (List.zipWith (fun t v => SubRun.mk t (Except.ok v)) ts vs) = vs := by
  induction ts with
  | nil =>
    intro vs h
    cases vs with
    | nil => rfl
    | cons v vs => simp at h
  | cons t ts ih =>
    intro vs h
    cases vs with
    | nil => simp at h
    | cons v vs =>
      simp only [List.length_cons, Nat.succ.injEq] at h
      simp [okValue, ih vs h]

/-- Helper: the `pickEarlier` fold starting from an incumbent returns the
incumbent or a list element, no later than the incumbent and no later than
any list element. -/
lemma pickEarlier_foldl_spec (l : List (Nat × Nat × PyExc)) :
    ∀ acc r : Nat × Nat × PyExc,
      l.foldl pickEarlier (some acc) = some r →
      (r = acc ∨ r ∈ l) ∧ r.2.1 ≤ acc.2.1 ∧ ∀ x ∈ l, r.2.1 ≤ x.2.1 := by
  induction l with
  | nil =>
    intro acc r h
    simp only [List.foldl_nil, Option.some.injEq] at h
    subst h
    simp
  | cons y l ih =>
    intro acc r h
    simp only [List.foldl_cons] at h
    by_cases hy : y.2.1 < acc.2.1
    · have h2 : l.foldl pickEarlier (some y) = some r := by
        simpa [pickEarlier, hy] using h
      rcases ih y r h2 with ⟨hmem, hle, hall⟩
      refine ⟨?_, ?_, ?_⟩
      · rcases hmem with h3 | h3
        · exact Or.inr (by simp [h3])
        · exact Or.inr (List.mem_cons_of_mem y h3)
      · exact le_trans hle (le_of_lt hy)
      · intro x hx
        rcases List.mem_cons.mp hx with h3 | h3
        · exact h3 ▸ hle
        · exact hall x h3
    · have h2 : l.foldl pickEarlier (some acc) = some r := by
        simpa [pickEarlier, hy] using h
      rcases ih acc r h2 with ⟨hmem, hle, hall⟩
      refine ⟨?_, hle, ?_⟩
      · rcases hmem with h3 | h3
        · exact Or.inl h3
        · exact Or.inr (List.mem_cons_of_mem y h3)
      · intro x hx
        rcases List.mem_cons.mp hx with h3 | h3
        · subst h3
          exact le_trans hle (Nat.le_of_not_lt hy)
        · exact hall x h3

/-- Helper: the first failure is one of the failure slots and completed no
later than every failure slot. -/
lemma firstFailure_spec (subs : List SubRun) (r : Nat × Nat × PyExc)
    (h : firstFailure subs = some r) :
    r ∈ failureSlots subs ∧ ∀ x ∈ failureSlots subs, r.2.1 ≤ x.2.1 := by
  unfold firstFailure at h
  cases hl : failureSlots subs with
  | nil => simp [hl] at h
  | cons y l =>
    rw [hl] at h
    simp only [List.foldl_cons, pickEarlier] at h
    rcases pickEarlier_foldl_spec l y r h with ⟨hmem, hle, hall⟩
    refine ⟨?_, ?_⟩
    · rcases hmem with h3 | h3
      · simp [h3]
      · exact List.mem_cons_of_mem y h3
    · intro x hx
      rcases List.mem_cons.mp hx with h3 | h3
      · exact h3 ▸ hle
      · exact hall x h3

/-- C5: for every batch of effects run through the parallel performer in
which every effect succeeds, the aggregate resolves with the individual
results in original submission order, whatever the individual wall-clock
completion times were; and the dispatcher built by
`make_asyncio_dispatcher` maps `ParallelEffects` to that performer. -/
theorem parallel_preserves_submission_order (times : List Nat)
    (vals : List PyVal) (h : times.length = vals.length) :
    (perform_parallel_async
        (List.zipWith (fun t v => SubRun.mk t (Except.ok v)) times vals)).2 =
      Except.ok vals ∧
    typeDispatcherLookup (make_asyncio_dispatcher (Option.none : Option Unit))
        IntentType.parallelEffects =
      some BuiltinPerformer.parallelAsyncPerformer := by
  refine ⟨?_, rfl⟩
  have hff :
      firstFailure
        (List.zipWith (fun t v => SubRun.mk t (Except.ok v)) times vals) =
      Option.none := by
    simp [firstFailure, failureSlots, failureSlotsFrom_all_ok]
  simp [perform_parallel_async, hff, filterMap_okValue_zip times vals h]

/-- C5 witness: the repository test batch — `'a'` completing immediately, a
10-unit-delayed `'...'`, `'b'` completing immediately — aggregates to
exactly `['a', '...', 'b']`. -/
theorem parallel_preserves_submission_order_witness :
    (perform_parallel_async
        (List.zipWith (fun t v => SubRun.mk t (Except.ok v)) [0, 10, 0]
          [PyVal.str "a", PyVal.str "...", PyVal.str "b"])).2 =
      Except.ok [PyVal.str "a", PyVal.str "...", PyVal.str "b"] :=
  (parallel_preserves_submission_order [0, 10, 0]
    [PyVal.str "a", PyVal.str "...", PyVal.str "b"] rfl).1

/-- C6: when some sub-effect fails, the aggregate rejects at the completion
time of the first failure to complete on the wall clock, with the effect
library's first-error aggregate wrapping that sub-error and its submission
index; that time is no later than any failing slot's completion time, and
the aggregate outcome is unchanged under any change to the non-failing
siblings (any completion times, values or count), i.e. the aggregate does
not wait for still-pending sub-effects. -/
theorem parallel_first_error_wins (subs : List SubRun) (i t : Nat)
    (e : PyExc) (h : firstFailure subs = some (i, t, e)) :
    perform_parallel_async subs = (t, Except.error ⟨e, i⟩) ∧
    (i, t, e) ∈ failureSlots subs ∧
    (∀ x ∈ failureSlots subs, t ≤ x.2.1) ∧
    (∀ subs2 : List SubRun, failureSlots subs2 = failureSlots subs →
      perform_parallel_async subs2 = (t, Except.error ⟨e, i⟩)) := by
  rcases firstFailure_spec subs (i, t, e) h with ⟨hmem, hall⟩
  refine ⟨?_, hmem, hall, ?_⟩
  · simp [perform_parallel_async, h]
  · intro subs2 h2
    have h3 : firstFailure subs2 = some (i, t, e) := by
      simpa [firstFailure, h2] using h
    simp [perform_parallel_async, h3]

/-- C6 witness: the repository test scenario — two siblings that would
succeed after 1000 time units and a third effect failing with
`RuntimeError("My error")` after 10 units — rejects at time 10 (not 1000)
with the first-error wrapper around that error and index 2. -/
theorem parallel_first_error_wins_witness :
    perform_parallel_async
        [⟨1000, Except.ok PyVal.none⟩, ⟨1000, Except.ok PyVal.none⟩,
          ⟨10, Except.error ⟨"RuntimeError", PyVal.str "My error"⟩⟩] =
      (10, Except.error ⟨⟨"RuntimeError", PyVal.str "My error"⟩, 2⟩) ∧
    (10 : Nat) < 1000 :=
  ⟨(parallel_first_error_wins
      [⟨1000, Except.ok PyVal.none⟩, ⟨1000, Except.ok PyVal.none⟩,
        ⟨10, Except.error ⟨"RuntimeError", PyVal.str "My error"⟩⟩]
      2 10 ⟨"RuntimeError", PyVal.str "My error"⟩ rfl).1,
   by decide⟩

/-- C7: the task `perform_delay` schedules for a `Delay` intent of duration
`d` is unresolved at every time before `d` scheduler time units have
elapsed since its start, is resolved at every time from that point on, and
resolves with no value (`None`). -/
theorem perform_delay_semantics (start t : Nat) (d : Delay) :
    (t < start + d.delay → doneBy (perform_delay start d) t = false) ∧
    (start + d.delay ≤ t → doneBy (perform_delay start d) t = true) ∧
    (perform_delay start d).outcome = Except.ok PyVal.none := by
  refine ⟨?_, ?_, rfl⟩ <;> intro h <;>
    simp [doneBy, perform_delay, sleep] <;> omega

/-- C7 witness: a `Delay 4` started at time 0 is unresolved when polled at
times 0 through 3, resolved at time 4, and carries `None`. -/
theorem perform_delay_semantics_witness :
    doneBy (perform_delay 0 ⟨4⟩) 0 = false ∧
    doneBy (perform_delay 0 ⟨4⟩) 3 = false ∧
    doneBy (perform_delay 0 ⟨4⟩) 4 = true ∧
    (perform_delay 0 ⟨4⟩).outcome = Except.ok PyVal.none :=
  ⟨(perform_delay_semantics 0 0 ⟨4⟩).1 (by decide),
   (perform_delay_semantics 0 3 ⟨4⟩).1 (by decide),
   (perform_delay_semantics 0 4 ⟨4⟩).2.1 (by decide),
   (perform_delay_semantics 0 4 ⟨4⟩).2.2⟩

/-- C8: decorating a function that exposes identity metadata preserves its
name, documentation string and attached custom attributes; decorating a
callable that exposes none (e.g. a partially-applied function) still
yields the decorated callable, silently keeping the wrapper's own generic
`asyncio_wrapper` identity. -/
theorem performer_preserves_metadata (m : FuncMeta) :
    (performer_meta (some m)).name = m.name ∧
    (performer_meta (some m)).doc = m.doc ∧
    (performer_meta (some m)).attrs = m.attrs ∧
    performer_meta Option.none = asyncio_wrapper_meta ∧
    (performer_meta Option.none).name = "asyncio_wrapper" := by
  simp [performer_meta, wrapsMeta, asyncio_wrapper_meta]

/-- C9: the decorated wrapper, invoked with the positional arguments plus a
trailing box and any keyword arguments, strips exactly the trailing box and
calls the wrapped function with the remaining positional arguments and the
keyword arguments passed through unchanged. -/
theorem asyncio_wrapper_passthrough {α : Type} (passArgs : List α) (box : α)
    (kwargs : List (String × α)) :
    asyncio_wrapper (passArgs ++ [box]) kwargs =
      some ⟨passArgs, kwargs, box⟩ := by
  simp [asyncio_wrapper]

/-- C10: for any two values of the `loop` argument (of any type, including
the default `None`), `make_asyncio_dispatcher` returns dispatchers with
identical contents, namely exactly the table mapping `ParallelEffects` to
the parallel-async performer and `Delay` to the delay performer — the
`loop` argument has no influence on the result. -/
theorem make_asyncio_dispatcher_ignores_loop {L : Type} (l1 l2 : Option L) :
    make_asyncio_dispatcher l1 = make_asyncio_dispatcher l2 ∧
    make_asyncio_dispatcher l1 =
      [(IntentType.parallelEffects, BuiltinPerformer.parallelAsyncPerformer),
        (IntentType.delayIntent, BuiltinPerformer.delayPerformer)] :=
  ⟨rfl, rfl⟩

end Aioeffect
